import Mathlib

/-!
Shallow embedding of `scripts/diff_check.py` from the
`ros2_graph_and_state_viewer` repository, together with the snapshot data
model produced by `scripts/ros2_state_dumper.py`, and proofs of the
specification's claims about the diff engine.

The python script loads two JSON snapshot documents, walks the four
top-level collections `nodes`, `topics`, `services`, `connections`
(lines 41-91), accumulates a `diff_map` with `missing` / `add` / `change`
sub-maps, and finally writes the map to `diff_result.json` (lines 94-95).
Python dicts are modelled as ordered association lists (`Dict`); a missing
top-level key (a `KeyError` at line 49/50) is modelled by `Option` fields
of `RawDoc` and an `Except` result.
-/

namespace DiffCheck

/-- A node parameter as emitted by the dumper (lines 151-155 of
`ros2_state_dumper.py`): `{name, value, type}`, with the value already
coerced to its string representation. -/
structure Param where
  name : String
  value : String
  type : String
  deriving DecidableEq

/-- A node entry of the snapshot (`ros2_state_dumper.py` lines 311-317). -/
structure NodeInfo where
  id : String
  name : String
  path : List String
  type : String
  parameters : List Param
  deriving DecidableEq

/-- A topic or service entry (`ros2_state_dumper.py` lines 363-378). -/
structure ChannelInfo where
  id : String
  name : String
  type : String
  message_schema : List String
  deriving DecidableEq

/-- A connection record (`ros2_state_dumper.py` lines 334-360):
`{type, source_id, target_id, direction}`. -/
structure Connection where
  type : String
  source_id : String
  target_id : String
  direction : String
  deriving DecidableEq

/-- The `graph_metadata` top-level entry (`ros2_state_dumper.py` lines 226-229). -/
structure GraphMetadata where
  created_at : Int
  description : String
  deriving DecidableEq

/-- A JSON object with string keys, modelled as its ordered key/value list
(python dicts preserve insertion order; `json.load` never yields duplicate
keys, which well-formedness captures below). -/
abbrev Dict (α : Type) : Type := List (String × α)

/-- `d.keys()` in iteration order. -/
def Dict.keys {α : Type} (d : Dict α) : List String := d.map Prod.fst

/-- `d[k]` as an `Option` (python raises `KeyError` when absent). -/
def Dict.get? {α : Type} (d : Dict α) (k : String) : Option α :=
  (d.find? (fun kv => kv.fst == k)).map Prod.snd

/-- A snapshot document with all top-level keys present, shaped exactly as
the dumper emits it (`ros2_state_dumper.py` lines 225-235). -/
structure Snapshot where
  graph_metadata : GraphMetadata
  nodes : Dict NodeInfo
  topics : Dict ChannelInfo
  services : Dict ChannelInfo
  actions : Dict ChannelInfo
  connections : List Connection
  deriving DecidableEq

/-- A raw input document for the diff engine: any of the top-level keys may
be absent (`Option`), in which case indexing it raises `KeyError`. -/
structure RawDoc where
  graph_metadata : Option GraphMetadata
  nodes : Option (Dict NodeInfo)
  topics : Option (Dict ChannelInfo)
  services : Option (Dict ChannelInfo)
  actions : Option (Dict ChannelInfo)
  connections : Option (List Connection)
  deriving DecidableEq

def Snapshot.toRaw (S : Snapshot) : RawDoc :=
  { graph_metadata := some S.graph_metadata
    nodes := some S.nodes
    topics := some S.topics
    services := some S.services
    actions := some S.actions
    connections := some S.connections }

/-- One of the three sub-maps of `diff_map` (`diff_check.py` lines 17-39):
five lists keyed `topics`, `nodes`, `services`, `param`, `connections`. -/
structure DiffLists where
  topics : List String
  nodes : List String
  services : List String
  param : List String
  connections : List String
  deriving DecidableEq

/-- The whole `diff_map` (`diff_check.py` lines 17-39). -/
structure DiffMap where
  missing : DiffLists
  add : DiffLists
  change : DiffLists
  deriving DecidableEq

def emptyDiffLists : DiffLists := ⟨[], [], [], [], []⟩

def emptyDiffMap : DiffMap := ⟨emptyDiffLists, emptyDiffLists, emptyDiffLists⟩

/-- The composite identity string of a connection, the f-string of
`diff_check.py` lines 56-57:
`f"{source_id} -> {target_id}({type}:{direction})"`. -/
def connection_key (c : Connection) : String :=
  c.source_id ++ " -> " ++ c.target_id ++ "(" ++ c.type ++ ":" ++ c.direction ++ ")"

/-- `f"[{node}]: {pname}"`, the format of `missing`/`add` parameter entries
(`diff_check.py` lines 66, 75, 83, 91). -/
def missParamFmt (node pname : String) : String :=
  "[" ++ node ++ "]: " ++ pname

/-- `f"[{node}: {pname}] {bval} -> {aval}"`, the format of `change.param`
entries (`diff_check.py` line 80). -/
def changeParamFmt (node pname bval aval : String) : String :=
  "[" ++ node ++ ": " ++ pname ++ "] " ++ bval ++ " -> " ++ aval

/-- `[p['name'] for p in ps]` (`diff_check.py` lines 70, 72). -/
def paramNames (ps : List Param) : List String := ps.map Param.name

/-- `list(filter(lambda x: x['name'] == n, ps))[0]`: the first parameter
with the given name (`diff_check.py` lines 77-78). -/
def firstParamNamed (ps : List Param) (n : String) : Option Param :=
  ps.find? (fun p => p.name == n)

/-- Parameters of node `n` in dict `d`: `d[n]['parameters']`.  The `none`
branch is unreachable whenever `n` is one of the dict's keys. -/
def dictParams (d : Dict NodeInfo) (n : String) : List Param :=
  match Dict.get? d n with
  | some info => info.parameters
  | none => []

/-- Entries appended to `missing['param']` for a node present in both
snapshots (`diff_check.py` lines 73-75). -/
def nodeMissingParams (node : String) (bps aps : List Param) : List String :=
  ((paramNames bps).filter (fun pn => !((paramNames aps).contains pn))).map
    (fun pn => missParamFmt node pn)

/-- Entries appended to `add['param']` for a node present in both snapshots
(`diff_check.py` lines 81-83). -/
def nodeAddedParams (node : String) (bps aps : List Param) : List String :=
  ((paramNames aps).filter (fun pn => !((paramNames bps).contains pn))).map
    (fun pn => missParamFmt node pn)

/-- Entries appended to `change['param']` for a node present in both
snapshots (`diff_check.py` lines 76-80): the first parameter of each side
with the shared name is compared on its `value` field only. -/
def nodeChangedParams (node : String) (bps aps : List Param) : List String :=
  (paramNames bps).flatMap (fun pn =>
    if (paramNames aps).contains pn then
      match firstParamNamed bps pn, firstParamNamed aps pn with
      | some bp, some ap =>
        if bp.value != ap.value then [changeParamFmt node pn bp.value ap.value] else []
      | _, _ => []
    else [])

/-- The unconditional per-parameter cascade for a node reported missing or
added at the node level (`diff_check.py` lines 63-66 and 88-91). -/
def cascadeParams (node : String) (ps : List Param) : List String :=
  ps.map (fun p => missParamFmt node p.name)

/-- The `key == 'nodes'` iteration of the diff loop (`diff_check.py`
lines 48-91 with `key = 'nodes'`): entity-level missing/add over the key
sets, the parameter-level diff for nodes present in both snapshots, and the
parameter cascades for nodes present in only one. -/
def processNodes (b a : Dict NodeInfo) (dm : DiffMap) : DiffMap :=
  let before_names := Dict.keys b
  let after_names := Dict.keys a
  { dm with
    missing := { dm.missing with
      nodes := dm.missing.nodes ++ before_names.filter (fun n => !(after_names.contains n))
      param := dm.missing.param ++ before_names.flatMap (fun n =>
        if after_names.contains n then
          nodeMissingParams n (dictParams b n) (dictParams a n)
        else cascadeParams n (dictParams b n)) }
    change := { dm.change with
      param := dm.change.param ++ before_names.flatMap (fun n =>
        if after_names.contains n then
          nodeChangedParams n (dictParams b n) (dictParams a n)
        else []) }
    add := { dm.add with
      nodes := dm.add.nodes ++ after_names.filter (fun n => !(before_names.contains n))
      param := dm.add.param
        ++ before_names.flatMap (fun n =>
            if after_names.contains n then
              nodeAddedParams n (dictParams b n) (dictParams a n)
            else [])
        ++ after_names.flatMap (fun n =>
            if before_names.contains n then []
            else cascadeParams n (dictParams a n)) } }

/-- The `key == 'topics'` iteration (`diff_check.py` lines 48-91, only the
entity-level membership scans fire). -/
def processTopics (b a : Dict ChannelInfo) (dm : DiffMap) : DiffMap :=
  let before_names := Dict.keys b
  let after_names := Dict.keys a
  { dm with
    missing := { dm.missing with
      topics := dm.missing.topics ++ before_names.filter (fun n => !(after_names.contains n)) }
    add := { dm.add with
      topics := dm.add.topics ++ after_names.filter (fun n => !(before_names.contains n)) } }

/-- The `key == 'services'` iteration. -/
def processServices (b a : Dict ChannelInfo) (dm : DiffMap) : DiffMap :=
  let before_names := Dict.keys b
  let after_names := Dict.keys a
  { dm with
    missing := { dm.missing with
      services := dm.missing.services ++ before_names.filter (fun n => !(after_names.contains n)) }
    add := { dm.add with
      services := dm.add.services ++ after_names.filter (fun n => !(before_names.contains n)) } }

/-- The `key == 'connections'` iteration: names are the composite key
strings of the connection lists (`diff_check.py` lines 56-57). -/
def processConnections (b a : List Connection) (dm : DiffMap) : DiffMap :=
  let before_names := b.map connection_key
  let after_names := a.map connection_key
  { dm with
    missing := { dm.missing with
      connections := dm.missing.connections
        ++ before_names.filter (fun n => !(after_names.contains n)) }
    add := { dm.add with
      connections := dm.add.connections
        ++ after_names.filter (fun n => !(before_names.contains n)) } }

/-- The four top-level keys, in the order of the `keys` list
(`diff_check.py` lines 41-46). -/
inductive TopKey where
  | nodes
  | topics
  | services
  | connections
  deriving DecidableEq

def keyOrder : List TopKey := [.nodes, .topics, .services, .connections]

/-- The script's mutable state during the loop: the two loaded documents
and the accumulating `diff_map`. -/
structure EngineState where
  before_data : RawDoc
  after_data : RawDoc
  diff_map : DiffMap
  deriving DecidableEq

/-- One iteration of `for key in keys` (`diff_check.py` lines 48-91).
`before_data[key]` is read first, then `after_data[key]` (lines 49-50); a
missing key raises `KeyError`, modelled as `Except.error`. -/
def processKey (s : EngineState) (k : TopKey) : Except String EngineState :=
  match k with
  | .nodes =>
    match s.before_data.nodes with
    | none => .error "KeyError: nodes"
    | some b =>
      match s.after_data.nodes with
      | none => .error "KeyError: nodes"
      | some a => .ok { s with diff_map := processNodes b a s.diff_map }
  | .topics =>
    match s.before_data.topics with
    | none => .error "KeyError: topics"
    | some b =>
      match s.after_data.topics with
      | none => .error "KeyError: topics"
      | some a => .ok { s with diff_map := processTopics b a s.diff_map }
  | .services =>
    match s.before_data.services with
    | none => .error "KeyError: services"
    | some b =>
      match s.after_data.services with
      | none => .error "KeyError: services"
      | some a => .ok { s with diff_map := processServices b a s.diff_map }
  | .connections =>
    match s.before_data.connections with
    | none => .error "KeyError: connections"
    | some b =>
      match s.after_data.connections with
      | none => .error "KeyError: connections"
      | some a => .ok { s with diff_map := processConnections b a s.diff_map }

/-- The whole loop `for key in keys` (`diff_check.py` lines 48-91). -/
def runEngine (s : EngineState) : Except String EngineState :=
  keyOrder.foldlM processKey s

/-- The diff computation on two raw documents, starting from the literal
`diff_map` of lines 17-39. -/
def diff_check (bd ad : RawDoc) : Except String DiffMap :=
  (runEngine ⟨bd, ad, emptyDiffMap⟩).map EngineState.diff_map

/-- The document the script writes: `diff_result.json` is written only when
the loop completes (`diff_check.py` lines 94-95); an uncaught `KeyError`
aborts the process before the write, so nothing is emitted. -/
def script_output (bd ad : RawDoc) : Option DiffMap :=
  (diff_check bd ad).toOption

/-- The diff of two full snapshots: the four loop iterations in order. -/
def snapDiff (A B : Snapshot) : DiffMap :=
  processConnections A.connections B.connections
    (processServices A.services B.services
      (processTopics A.topics B.topics
        (processNodes A.nodes B.nodes emptyDiffMap)))

/-- Well-formedness of a snapshot, per the spec's invariants: the keys of
`nodes`, `topics`, `services` are unique, and each node's parameter names
are unique. -/
def SnapWF (S : Snapshot) : Prop :=
  (Dict.keys S.nodes).Nodup ∧ (Dict.keys S.topics).Nodup ∧
  (Dict.keys S.services).Nodup ∧
  ∀ kv ∈ S.nodes, (paramNames kv.snd.parameters).Nodup

instance (S : Snapshot) : Decidable (SnapWF S) := by
  unfold SnapWF
  infer_instance

/-- A structured view of one `change.param` entry: the node, the parameter
name, and the two compared values, before formatting. -/
structure ChangeRec where
  node : String
  pname : String
  before_value : String
  after_value : String
  deriving DecidableEq

/-- The structured records underlying `nodeChangedParams`. -/
def nodeChangeRecs (node : String) (bps aps : List Param) : List ChangeRec :=
  (paramNames bps).flatMap (fun pn =>
    if (paramNames aps).contains pn then
      match firstParamNamed bps pn, firstParamNamed aps pn with
      | some bp, some ap =>
        if bp.value != ap.value then [⟨node, pn, bp.value, ap.value⟩] else []
      | _, _ => []
    else [])

/-- The structured records underlying the whole `change.param` list. -/
def changeRecords (A B : Snapshot) : List ChangeRec :=
  (Dict.keys A.nodes).flatMap (fun n =>
    if (Dict.keys B.nodes).contains n then
      nodeChangeRecs n (dictParams A.nodes n) (dictParams B.nodes n)
    else [])

/-- Serialization of a structured change record into the engine's string. -/
def recFmt (r : ChangeRec) : String :=
  changeParamFmt r.node r.pname r.before_value r.after_value

/-- Reverse the `before -> after` direction of a change record. -/
def swapRec (r : ChangeRec) : ChangeRec :=
  ⟨r.node, r.pname, r.after_value, r.before_value⟩

/-- Erase the `type` tag of a parameter, keeping name and value. -/
def eraseParamType (p : Param) : Param :=
  ⟨p.name, p.value, ""⟩

def eraseNodeParamTypes (i : NodeInfo) : NodeInfo :=
  { i with parameters := i.parameters.map eraseParamType }

/-- Erase every parameter `type` tag of a snapshot. -/
def snapErase (S : Snapshot) : Snapshot :=
  { S with nodes := S.nodes.map (fun kv => (kv.fst, eraseNodeParamTypes kv.snd)) }

attribute [ext] DiffLists DiffMap

/-! ### Basic helper lemmas -/

theorem contains_iff {l : List String} {a : String} : l.contains a = true ↔ a ∈ l := by
  simp [List.contains, List.elem_eq_mem]

theorem filter_not_contains_self (l : List String) :
    l.filter (fun n => !(l.contains n)) = [] := by
  rw [List.filter_eq_nil_iff]
  intro a ha
  have hc : l.contains a = true := contains_iff.mpr ha
  simp [hc]
  exact ha

/-- Running the script on two full snapshot documents succeeds and returns
exactly the composed four-step diff. -/
theorem diff_check_eq_snapDiff (A B : Snapshot) :
    diff_check A.toRaw B.toRaw = .ok (snapDiff A B) := rfl

theorem Dict.mem_keys_of_get?_eq_some {α : Type} {d : Dict α} {k : String} {v : α}
    (h : Dict.get? d k = some v) : k ∈ Dict.keys d := by
  unfold Dict.get? at h
  cases hf : List.find? (fun kv => kv.fst == k) d with
  | none => rw [hf] at h; simp at h
  | some kv =>
    have hmem := List.mem_of_find?_eq_some hf
    have hk : kv.fst = k := by
      have := List.find?_some hf
      simpa using this
    exact hk ▸ List.mem_map.mpr ⟨kv, hmem, rfl⟩

theorem count_filter_ite {l : List String} {p : String → Bool} {k : String} :
    List.count k (l.filter p) = if p k then List.count k l else 0 := by
  by_cases h : p k = true
  · rw [List.count_filter h, if_pos h]
  · rw [if_neg h]
    apply List.count_eq_zero_of_not_mem
    intro hm
    exact h (List.mem_filter.mp hm).2

theorem firstParamNamed_isSome {ps : List Param} {pn : String} (h : pn ∈ paramNames ps) :
    ∃ p, firstParamNamed ps pn = some p := by
  have hs : (firstParamNamed ps pn).isSome = true := by
    rw [firstParamNamed, List.find?_isSome]
    obtain ⟨q, hq, hqn⟩ := List.mem_map.mp h
    exact ⟨q, hq, by simp [hqn]⟩
  cases hfp : firstParamNamed ps pn with
  | none => rw [hfp] at hs; simp at hs
  | some p => exact ⟨p, rfl⟩

theorem mem_paramNames_of_firstParamNamed {ps : List Param} {pn : String} {p : Param}
    (h : firstParamNamed ps pn = some p) : pn ∈ paramNames ps := by
  have hmem := List.mem_of_find?_eq_some h
  have hn : p.name = pn := by
    have := List.find?_some h
    simpa using this
  exact hn ▸ List.mem_map.mpr ⟨p, hmem, rfl⟩

/-! ### Shape of each report field -/

theorem snapDiff_missing_nodes (A B : Snapshot) :
    (snapDiff A B).missing.nodes =
      (Dict.keys A.nodes).filter (fun n => !((Dict.keys B.nodes).contains n)) := by
  simp [snapDiff, processConnections, processServices, processTopics, processNodes,
    emptyDiffMap, emptyDiffLists]

theorem snapDiff_add_nodes (A B : Snapshot) :
    (snapDiff A B).add.nodes =
      (Dict.keys B.nodes).filter (fun n => !((Dict.keys A.nodes).contains n)) := by
  simp [snapDiff, processConnections, processServices, processTopics, processNodes,
    emptyDiffMap, emptyDiffLists]

theorem snapDiff_missing_topics (A B : Snapshot) :
    (snapDiff A B).missing.topics =
      (Dict.keys A.topics).filter (fun n => !((Dict.keys B.topics).contains n)) := by
  simp [snapDiff, processConnections, processServices, processTopics, processNodes,
    emptyDiffMap, emptyDiffLists]

theorem snapDiff_add_topics (A B : Snapshot) :
    (snapDiff A B).add.topics =
      (Dict.keys B.topics).filter (fun n => !((Dict.keys A.topics).contains n)) := by
  simp [snapDiff, processConnections, processServices, processTopics, processNodes,
    emptyDiffMap, emptyDiffLists]

theorem snapDiff_missing_services (A B : Snapshot) :
    (snapDiff A B).missing.services =
      (Dict.keys A.services).filter (fun n => !((Dict.keys B.services).contains n)) := by
  simp [snapDiff, processConnections, processServices, processTopics, processNodes,
    emptyDiffMap, emptyDiffLists]

theorem snapDiff_add_services (A B : Snapshot) :
    (snapDiff A B).add.services =
      (Dict.keys B.services).filter (fun n => !((Dict.keys A.services).contains n)) := by
  simp [snapDiff, processConnections, processServices, processTopics, processNodes,
    emptyDiffMap, emptyDiffLists]

theorem snapDiff_missing_connections (A B : Snapshot) :
    (snapDiff A B).missing.connections =
      (A.connections.map connection_key).filter
        (fun n => !((B.connections.map connection_key).contains n)) := by
  simp [snapDiff, processConnections, processServices, processTopics, processNodes,
    emptyDiffMap, emptyDiffLists]

theorem snapDiff_add_connections (A B : Snapshot) :
    (snapDiff A B).add.connections =
      (B.connections.map connection_key).filter
        (fun n => !((A.connections.map connection_key).contains n)) := by
  simp [snapDiff, processConnections, processServices, processTopics, processNodes,
    emptyDiffMap, emptyDiffLists]

theorem snapDiff_missing_param (A B : Snapshot) :
    (snapDiff A B).missing.param =
      (Dict.keys A.nodes).flatMap (fun n =>
        if (Dict.keys B.nodes).contains n then
          nodeMissingParams n (dictParams A.nodes n) (dictParams B.nodes n)
        else cascadeParams n (dictParams A.nodes n)) := by
  simp [snapDiff, processConnections, processServices, processTopics, processNodes,
    emptyDiffMap, emptyDiffLists]

theorem snapDiff_add_param (A B : Snapshot) :
    (snapDiff A B).add.param =
      (Dict.keys A.nodes).flatMap (fun n =>
        if (Dict.keys B.nodes).contains n then
          nodeAddedParams n (dictParams A.nodes n) (dictParams B.nodes n)
        else [])
      ++ (Dict.keys B.nodes).flatMap (fun n =>
        if (Dict.keys A.nodes).contains n then []
        else cascadeParams n (dictParams B.nodes n)) := by
  simp [snapDiff, processConnections, processServices, processTopics, processNodes,
    emptyDiffMap, emptyDiffLists]

theorem snapDiff_change_param (A B : Snapshot) :
    (snapDiff A B).change.param =
      (Dict.keys A.nodes).flatMap (fun n =>
        if (Dict.keys B.nodes).contains n then
          nodeChangedParams n (dictParams A.nodes n) (dictParams B.nodes n)
        else []) := by
  simp [snapDiff, processConnections, processServices, processTopics, processNodes,
    emptyDiffMap, emptyDiffLists]

theorem snapDiff_change_entities (A B : Snapshot) :
    (snapDiff A B).change.nodes = [] ∧ (snapDiff A B).change.topics = [] ∧
    (snapDiff A B).change.services = [] ∧ (snapDiff A B).change.connections = [] := by
  refine ⟨?_, ?_, ?_, ?_⟩ <;>
    simp [snapDiff, processConnections, processServices, processTopics, processNodes,
      emptyDiffMap, emptyDiffLists]

/-! ### Per-node lemmas for the self-diff -/

theorem nodeMissingParams_self (node : String) (ps : List Param) :
    nodeMissingParams node ps ps = [] := by
  unfold nodeMissingParams
  rw [filter_not_contains_self]
  rfl

theorem nodeAddedParams_self (node : String) (ps : List Param) :
    nodeAddedParams node ps ps = [] :=
  nodeMissingParams_self node ps

theorem nodeChangedParams_self (node : String) (ps : List Param) :
    nodeChangedParams node ps ps = [] := by
  unfold nodeChangedParams
  rw [List.flatMap_eq_nil_iff]
  intro pn _
  cases hf : firstParamNamed ps pn with
  | none => simp [hf]
  | some bp => simp [hf]

/-- C3: diffing a well-formed snapshot against itself yields a report in
which every list of `missing`, `add` and `change` is empty (this holds for
every snapshot, well-formed or not). -/
theorem diff_identity_law (S : Snapshot) : snapDiff S S = emptyDiffMap := by
  have hce := snapDiff_change_entities S S
  refine DiffMap.ext (DiffLists.ext ?_ ?_ ?_ ?_ ?_) (DiffLists.ext ?_ ?_ ?_ ?_ ?_)
    (DiffLists.ext ?_ ?_ ?_ ?_ ?_)
  · rw [snapDiff_missing_topics, filter_not_contains_self]; rfl
  · rw [snapDiff_missing_nodes, filter_not_contains_self]; rfl
  · rw [snapDiff_missing_services, filter_not_contains_self]; rfl
  · rw [snapDiff_missing_param]
    show _ = ([] : List String)
    rw [List.flatMap_eq_nil_iff]
    intro n hn
    rw [if_pos (contains_iff.mpr hn), nodeMissingParams_self]
  · rw [snapDiff_missing_connections, filter_not_contains_self]; rfl
  · rw [snapDiff_add_topics, filter_not_contains_self]; rfl
  · rw [snapDiff_add_nodes, filter_not_contains_self]; rfl
  · rw [snapDiff_add_services, filter_not_contains_self]; rfl
  · rw [snapDiff_add_param]
    show _ = ([] : List String)
    have h1 : ((Dict.keys S.nodes).flatMap (fun n =>
        if (Dict.keys S.nodes).contains n then
          nodeAddedParams n (dictParams S.nodes n) (dictParams S.nodes n)
        else [])) = [] := by
      rw [List.flatMap_eq_nil_iff]
      intro n hn
      rw [if_pos (contains_iff.mpr hn), nodeAddedParams_self]
    have h2 : ((Dict.keys S.nodes).flatMap (fun n =>
        if (Dict.keys S.nodes).contains n then []
        else cascadeParams n (dictParams S.nodes n))) = [] := by
      rw [List.flatMap_eq_nil_iff]
      intro n hn
      rw [if_pos (contains_iff.mpr hn)]
    rw [h1, h2]
    rfl
  · rw [snapDiff_add_connections, filter_not_contains_self]; rfl
  · exact hce.2.1
  · exact hce.1
  · exact hce.2.2.1
  · rw [snapDiff_change_param]
    show _ = ([] : List String)
    rw [List.flatMap_eq_nil_iff]
    intro n hn
    rw [if_pos (contains_iff.mpr hn), nodeChangedParams_self]
  · exact hce.2.2.2

/-- C8: the `change` sub-map is only ever populated for `param`: the
entity-level `change` lists for nodes, topics, services and connections are
empty for every pair of snapshots, even when entities present in both
snapshots differ in their non-parameter fields. -/
theorem change_entity_lists_empty (A B : Snapshot) :
    (snapDiff A B).change.nodes = [] ∧ (snapDiff A B).change.topics = [] ∧
    (snapDiff A B).change.services = [] ∧ (snapDiff A B).change.connections = [] :=
  snapDiff_change_entities A B

/-- C1 counterexample: a well-formed `before` snapshot listing the same
connection twice, diffed against a well-formed empty `after` snapshot,
reports the composite key twice in `missing.connections`, not exactly
once. -/
theorem connection_duplicates_counterexample :
    SnapWF ⟨⟨0, ""⟩, [], [], [], [],
        [⟨"topic", "/a", "/b", "publish"⟩, ⟨"topic", "/a", "/b", "publish"⟩]⟩ ∧
    SnapWF ⟨⟨0, ""⟩, [], [], [], [], []⟩ ∧
    List.count "/a -> /b(topic:publish)"
      (snapDiff
        ⟨⟨0, ""⟩, [], [], [], [],
          [⟨"topic", "/a", "/b", "publish"⟩, ⟨"topic", "/a", "/b", "publish"⟩]⟩
        ⟨⟨0, ""⟩, [], [], [], [], []⟩).missing.connections = 2 := by decide

/-- C1 amended: duplicate connection entries are collapsed for presence
testing (a key is reported missing iff it occurs in `before` and not in
`after`), but each duplicate list entry contributes its own report line:
the multiplicity of a key in `missing.connections` (resp.
`add.connections`) equals its multiplicity among `before`'s (resp.
`after`'s) connection keys when the other snapshot lacks the key, not
exactly one. -/
theorem connection_key_multiplicity (A B : Snapshot) (k : String) :
    (k ∈ (snapDiff A B).missing.connections ↔
      (k ∈ A.connections.map connection_key ∧ k ∉ B.connections.map connection_key)) ∧
    List.count k (snapDiff A B).missing.connections =
      (if k ∈ B.connections.map connection_key then 0
       else List.count k (A.connections.map connection_key)) ∧
    (k ∈ (snapDiff A B).add.connections ↔
      (k ∈ B.connections.map connection_key ∧ k ∉ A.connections.map connection_key)) ∧
    List.count k (snapDiff A B).add.connections =
      (if k ∈ A.connections.map connection_key then 0
       else List.count k (B.connections.map connection_key)) := by
  rw [snapDiff_missing_connections, snapDiff_add_connections]
  refine ⟨?_, ?_, ?_, ?_⟩
  · simp [List.mem_filter]
  · rw [count_filter_ite]
    by_cases hm : k ∈ B.connections.map connection_key <;> simp [hm]
  · simp [List.mem_filter]
  · rw [count_filter_ite]
    by_cases hm : k ∈ A.connections.map connection_key <;> simp [hm]

/-! ### Injectivity of the connection key -/

theorem append_sep_inj {α : Type} {x : α} :
    ∀ (a : List α) {c b d : List α}, x ∉ a → x ∉ c → a ++ x :: b = c ++ x :: d →
      a = c ∧ b = d := by
  intro a
  induction a with
  | nil =>
    intro c b d _ hc h
    cases c with
    | nil => simpa using h
    | cons z u =>
      simp only [List.nil_append, List.cons_append, List.cons.injEq] at h
      exact absurd (h.1 ▸ List.mem_cons_self x u) (h.1 ▸ hc)
  | cons y t ih =>
    intro c b d ha hc h
    cases c with
    | nil =>
      simp only [List.nil_append, List.cons_append, List.cons.injEq] at h
      exact absurd (h.1 ▸ List.mem_cons_self y t) (h.1 ▸ ha)
    | cons z u =>
      simp only [List.cons_append, List.cons.injEq] at h
      obtain ⟨h1, h2⟩ := h
      have ht := ih (fun hm => ha (List.mem_cons_of_mem y hm))
        (fun hm => hc (List.mem_cons_of_mem z hm)) h2
      exact ⟨by rw [h1, ht.1], ht.2⟩

theorem connection_key_data (c : Connection) :
    (connection_key c).data =
      c.source_id.data ++ ' ' :: '-' :: '>' :: ' ' ::
        (c.target_id.data ++ '(' ::
          (c.type.data ++ ':' :: (c.direction.data ++ [')']))) := by
  have h1 : (" -> " : String).data = [' ', '-', '>', ' '] := rfl
  have h2 : ("(" : String).data = ['('] := rfl
  have h3 : (":" : String).data = [':'] := rfl
  have h4 : (")" : String).data = [')'] := rfl
  simp [connection_key, String.data_append, h1, h2, h3, h4]

/-- C2 counterexample: two connections that differ in their `source_id` and
`target_id` fields but share the same composite key string, because the
` -> ` separator can occur inside a field. -/
theorem connection_key_collision_counterexample :
    connection_key ⟨"t", "a", "b -> c", "d"⟩ = connection_key ⟨"t", "a -> b", "c", "d"⟩ ∧
    (⟨"t", "a", "b -> c", "d"⟩ : Connection) ≠ (⟨"t", "a -> b", "c", "d"⟩ : Connection) := by
  decide

/-- C2 amended: the composite key is deterministic, and it is injective on
connections whose `source_id` contains no space, whose `target_id` contains
no `'('` and whose kind contains no `':'` (all ROS graph names and type
names satisfy this); without such a restriction distinct field tuples can
collide. -/
theorem connection_key_injective_separator_free (c d : Connection)
    (hs1 : ' ' ∉ c.source_id.data) (hs2 : ' ' ∉ d.source_id.data)
    (ht1 : '(' ∉ c.target_id.data) (ht2 : '(' ∉ d.target_id.data)
    (hy1 : ':' ∉ c.type.data) (hy2 : ':' ∉ d.type.data) :
    connection_key c = connection_key d ↔ c = d := by
  constructor
  · intro h
    have hd := congrArg String.data h
    rw [connection_key_data, connection_key_data] at hd
    obtain ⟨e1, hd1⟩ := append_sep_inj _ hs1 hs2 hd
    simp only [List.cons.injEq, true_and] at hd1
    obtain ⟨e2, hd2⟩ := append_sep_inj _ ht1 ht2 hd1
    obtain ⟨e3, hd3⟩ := append_sep_inj _ hy1 hy2 hd2
    have e4 : c.direction.data = d.direction.data := List.append_cancel_right hd3
    obtain ⟨cty, cs, ct, cdir⟩ := c
    obtain ⟨dty, ds, dt, ddir⟩ := d
    simp only [Connection.mk.injEq]
    exact ⟨String.ext e3, String.ext e1, String.ext e2, String.ext e4⟩
  · intro h
    rw [h]

theorem connection_key_injective_witness :
    connection_key ⟨"topic", "/a", "/b", "publish"⟩ =
        connection_key ⟨"topic", "/a", "/c", "publish"⟩ ↔
      (⟨"topic", "/a", "/b", "publish"⟩ : Connection) = ⟨"topic", "/a", "/c", "publish"⟩ :=
  connection_key_injective_separator_free ⟨"topic", "/a", "/b", "publish"⟩
    ⟨"topic", "/a", "/c", "publish"⟩ (by decide) (by decide) (by decide) (by decide)
    (by decide) (by decide)

/-! ### Node deletion/addition cascades to parameters -/

/-- C5: a node found only in `before` is reported in `missing.nodes` and
every one of its parameters is reported in `missing.param`; symmetrically a
node found only in `after` is reported in `add.nodes` with every parameter
in `add.param`. -/
theorem node_lifecycle_param_cascade (A B : Snapshot) (n : String) (info : NodeInfo) :
    (Dict.get? A.nodes n = some info → n ∉ Dict.keys B.nodes →
      n ∈ (snapDiff A B).missing.nodes ∧
      ∀ p ∈ info.parameters, missParamFmt n p.name ∈ (snapDiff A B).missing.param) ∧
    (Dict.get? B.nodes n = some info → n ∉ Dict.keys A.nodes →
      n ∈ (snapDiff A B).add.nodes ∧
      ∀ p ∈ info.parameters, missParamFmt n p.name ∈ (snapDiff A B).add.param) := by
  constructor
  · intro hget hnot
    have hmem : n ∈ Dict.keys A.nodes := Dict.mem_keys_of_get?_eq_some hget
    have hcon : (Dict.keys B.nodes).contains n = false := by
      cases hc : (Dict.keys B.nodes).contains n
      · rfl
      · exact absurd (contains_iff.mp hc) hnot
    constructor
    · rw [snapDiff_missing_nodes, List.mem_filter]
      exact ⟨hmem, by simpa using hnot⟩
    · intro p hp
      rw [snapDiff_missing_param, List.mem_flatMap]
      refine ⟨n, hmem, ?_⟩
      rw [if_neg (by simpa using hnot)]
      unfold cascadeParams dictParams
      rw [hget]
      exact List.mem_map.mpr ⟨p, hp, rfl⟩
  · intro hget hnot
    have hmem : n ∈ Dict.keys B.nodes := Dict.mem_keys_of_get?_eq_some hget
    have hcon : (Dict.keys A.nodes).contains n = false := by
      cases hc : (Dict.keys A.nodes).contains n
      · rfl
      · exact absurd (contains_iff.mp hc) hnot
    constructor
    · rw [snapDiff_add_nodes, List.mem_filter]
      exact ⟨hmem, by simpa using hnot⟩
    · intro p hp
      rw [snapDiff_add_param, List.mem_append]
      right
      rw [List.mem_flatMap]
      refine ⟨n, hmem, ?_⟩
      rw [if_neg (by simpa using hnot)]
      unfold cascadeParams dictParams
      rw [hget]
      exact List.mem_map.mpr ⟨p, hp, rfl⟩

theorem node_lifecycle_param_cascade_witness :
    "/cam" ∈ (snapDiff
        ⟨⟨0, ""⟩, [("/cam", ⟨"node_0", "/cam", ["cam"], "component",
          [⟨"fps", "30", "integer"⟩, ⟨"mode", "auto", "string"⟩]⟩)], [], [], [], []⟩
        ⟨⟨0, ""⟩, [], [], [], [], []⟩).missing.nodes ∧
    ∀ p ∈ [(⟨"fps", "30", "integer"⟩ : Param), ⟨"mode", "auto", "string"⟩],
      missParamFmt "/cam" p.name ∈ (snapDiff
        ⟨⟨0, ""⟩, [("/cam", ⟨"node_0", "/cam", ["cam"], "component",
          [⟨"fps", "30", "integer"⟩, ⟨"mode", "auto", "string"⟩]⟩)], [], [], [], []⟩
        ⟨⟨0, ""⟩, [], [], [], [], []⟩).missing.param :=
  (node_lifecycle_param_cascade
    ⟨⟨0, ""⟩, [("/cam", ⟨"node_0", "/cam", ["cam"], "component",
      [⟨"fps", "30", "integer"⟩, ⟨"mode", "auto", "string"⟩]⟩)], [], [], [], []⟩
    ⟨⟨0, ""⟩, [], [], [], [], []⟩ "/cam"
    ⟨"node_0", "/cam", ["cam"], "component",
      [⟨"fps", "30", "integer"⟩, ⟨"mode", "auto", "string"⟩]⟩).1 (by decide) (by decide)

/-! ### Error handling: missing top-level keys -/

/-- C7: if either input document lacks one of the four required top-level
keys, the run raises a `KeyError` and terminates without writing the output
document: no (partial) report is emitted. -/
theorem missing_top_level_key_aborts (bd ad : RawDoc)
    (h : bd.nodes = none ∨ bd.topics = none ∨ bd.services = none ∨ bd.connections = none ∨
      ad.nodes = none ∨ ad.topics = none ∨ ad.services = none ∨ ad.connections = none) :
    script_output bd ad = none ∧ ∃ e, diff_check bd ad = Except.error e := by
  obtain ⟨g1, n1, t1, s1, x1, c1⟩ := bd
  obtain ⟨g2, n2, t2, s2, x2, c2⟩ := ad
  cases n1 <;> cases n2 <;> cases t1 <;> cases t2 <;> cases s1 <;> cases s2 <;>
    cases c1 <;> cases c2 <;>
      simp_all [script_output, diff_check, runEngine, processKey, keyOrder, List.foldlM,
        Except.toOption, Except.map, Bind.bind, Except.bind]

theorem missing_top_level_key_aborts_witness :
    script_output ⟨some ⟨0, ""⟩, some [], none, some [], some [], some []⟩
        ⟨some ⟨0, ""⟩, some [], some [], some [], some [], some []⟩ = none ∧
    ∃ e, diff_check ⟨some ⟨0, ""⟩, some [], none, some [], some [], some []⟩
        ⟨some ⟨0, ""⟩, some [], some [], some [], some [], some []⟩ = Except.error e :=
  missing_top_level_key_aborts ⟨some ⟨0, ""⟩, some [], none, some [], some [], some []⟩
    ⟨some ⟨0, ""⟩, some [], some [], some [], some [], some []⟩ (Or.inr (Or.inl rfl))

/-! ### The engine never mutates its inputs -/

theorem processKey_preserves (s : EngineState) (k : TopKey) (s2 : EngineState)
    (h : processKey s k = Except.ok s2) :
    s2.before_data = s.before_data ∧ s2.after_data = s.after_data := by
  cases k <;> simp only [processKey] at h <;> split at h <;>
    first
      | exact Except.noConfusion h
      | (split at h
         · exact Except.noConfusion h
         · injection h with h2
           rw [← h2]
           exact ⟨rfl, rfl⟩)

theorem runEngine_eq (s : EngineState) :
    runEngine s = Except.bind (processKey s .nodes) (fun s1 =>
      Except.bind (processKey s1 .topics) (fun s2 =>
        Except.bind (processKey s2 .services) (fun s3 =>
          Except.bind (processKey s3 .connections) pure))) := by rfl

/-- C9: the diff loop never mutates either loaded document: whenever the
run completes, the final state carries `before_data` and `after_data`
unchanged from the initial state; only the freshly accumulated `diff_map`
differs. -/
theorem engine_never_mutates_inputs (s s4 : EngineState)
    (h : runEngine s = Except.ok s4) :
    s4.before_data = s.before_data ∧ s4.after_data = s.after_data := by
  rw [runEngine_eq] at h
  cases h1 : processKey s .nodes with
  | error e => rw [h1] at h; exact Except.noConfusion h
  | ok s1 =>
    rw [h1] at h
    simp only [Except.bind] at h
    cases h2 : processKey s1 .topics with
    | error e => rw [h2] at h; exact Except.noConfusion h
    | ok s2 =>
      rw [h2] at h
      simp only [Except.bind] at h
      cases h3 : processKey s2 .services with
      | error e => rw [h3] at h; exact Except.noConfusion h
      | ok s3 =>
        rw [h3] at h
        simp only [Except.bind] at h
        cases h4 : processKey s3 .connections with
        | error e => rw [h4] at h; exact Except.noConfusion h
        | ok s4x =>
          rw [h4] at h
          simp only [Except.bind, pure, Except.pure] at h
          injection h with hh
          subst hh
          have p1 := processKey_preserves s .nodes s1 h1
          have p2 := processKey_preserves s1 .topics s2 h2
          have p3 := processKey_preserves s2 .services s3 h3
          have p4 := processKey_preserves s3 .connections _ h4
          exact ⟨p4.1.trans (p3.1.trans (p2.1.trans p1.1)),
            p4.2.trans (p3.2.trans (p2.2.trans p1.2))⟩

theorem engine_never_mutates_inputs_witness :
    (EngineState.mk
        ⟨some ⟨0, "before"⟩, some [], some [], some [], some [], some []⟩
        ⟨some ⟨1, "after"⟩, some [], some [], some [], some [], some []⟩
        emptyDiffMap).before_data =
      ⟨some ⟨0, "before"⟩, some [], some [], some [], some [], some []⟩ ∧
    (EngineState.mk
        ⟨some ⟨0, "before"⟩, some [], some [], some [], some [], some []⟩
        ⟨some ⟨1, "after"⟩, some [], some [], some [], some [], some []⟩
        emptyDiffMap).after_data =
      ⟨some ⟨1, "after"⟩, some [], some [], some [], some [], some []⟩ :=
  engine_never_mutates_inputs
    ⟨⟨some ⟨0, "before"⟩, some [], some [], some [], some [], some []⟩,
      ⟨some ⟨1, "after"⟩, some [], some [], some [], some [], some []⟩, emptyDiffMap⟩
    ⟨⟨some ⟨0, "before"⟩, some [], some [], some [], some [], some []⟩,
      ⟨some ⟨1, "after"⟩, some [], some [], some [], some [], some []⟩, emptyDiffMap⟩
    (by rfl)

/-! ### The report depends only on the four collections -/

/-- C10: the produced report is a function of the four top-level
collections alone: two pairs of input documents that agree on `nodes`,
`topics`, `services` and `connections` but differ in any other top-level
entries (such as `graph_metadata` or `actions`) yield identical results. -/
theorem report_depends_only_on_four_collections (b1 a1 b2 a2 : RawDoc)
    (h1 : b1.nodes = b2.nodes) (h2 : b1.topics = b2.topics)
    (h3 : b1.services = b2.services) (h4 : b1.connections = b2.connections)
    (h5 : a1.nodes = a2.nodes) (h6 : a1.topics = a2.topics)
    (h7 : a1.services = a2.services) (h8 : a1.connections = a2.connections) :
    diff_check b1 a1 = diff_check b2 a2 := by
  obtain ⟨g1, n1, t1, s1, x1, c1⟩ := b1
  obtain ⟨g2, n2, t2, s2, x2, c2⟩ := b2
  obtain ⟨g3, n3, t3, s3, x3, c3⟩ := a1
  obtain ⟨g4, n4, t4, s4, x4, c4⟩ := a2
  change n1 = n2 at h1
  change t1 = t2 at h2
  change s1 = s2 at h3
  change c1 = c2 at h4
  change n3 = n4 at h5
  change t3 = t4 at h6
  change s3 = s4 at h7
  change c3 = c4 at h8
  subst h1; subst h2; subst h3; subst h4; subst h5; subst h6; subst h7; subst h8
  cases n1 <;> cases n3 <;> cases t1 <;> cases t3 <;> cases s1 <;> cases s3 <;>
    cases c1 <;> cases c3 <;> rfl

/-! ### Splitting a flatMap over a boolean test -/

theorem flatMap_ite_nil_right {α β : Type} (p : α → Bool) (f : α → List β) (l : List α) :
    (l.flatMap (fun a => if p a then f a else [])) = (l.filter p).flatMap f := by
  induction l with
  | nil => rfl
  | cons a t ih =>
    rw [List.flatMap_cons, List.filter_cons]
    by_cases h : p a = true
    · rw [if_pos h, if_pos h, List.flatMap_cons, ih]
    · rw [if_neg h, if_neg h, List.nil_append, ih]

theorem flatMap_ite_nil_left {α β : Type} (p : α → Bool) (g : α → List β) (l : List α) :
    (l.flatMap (fun a => if p a then [] else g a)) =
      (l.filter (fun a => !(p a))).flatMap g := by
  induction l with
  | nil => rfl
  | cons a t ih =>
    rw [List.flatMap_cons, List.filter_cons]
    by_cases h : p a = true
    · rw [if_pos h, if_neg (by simp [h]), List.nil_append, ih]
    · rw [if_neg h, if_pos (by simp [h]), List.flatMap_cons, ih]

theorem flatMap_ite_split_perm {α β : Type} (p : α → Bool) (f g : α → List β) (l : List α) :
    (l.flatMap (fun a => if p a then f a else g a)).Perm
      ((l.filter p).flatMap f ++ (l.filter (fun a => !(p a))).flatMap g) := by
  induction l with
  | nil => simp
  | cons a t ih =>
    rw [List.flatMap_cons, List.filter_cons, List.filter_cons]
    by_cases h : p a = true
    · rw [if_pos h, if_pos h, if_neg (by simp [h]), List.flatMap_cons, List.append_assoc]
      exact List.Perm.append_left (f a) ih
    · rw [if_neg h, if_neg h, if_pos (by simp [h]), List.flatMap_cons]
      exact (List.Perm.append_left (g a) ih).trans (List.perm_append_comm_assoc (g a) _ _)

theorem filter_mem_comm_perm {l1 l2 : List String} (h1 : l1.Nodup) (h2 : l2.Nodup) :
    (l1.filter (fun a => l2.contains a)).Perm (l2.filter (fun a => l1.contains a)) := by
  apply List.perm_of_nodup_nodup_toFinset_eq (h1.filter _) (h2.filter _)
  ext x
  simp only [List.mem_toFinset, List.mem_filter]
  constructor
  · rintro ⟨ha, hb⟩
    exact ⟨contains_iff.mp hb, contains_iff.mpr ha⟩
  · rintro ⟨ha, hb⟩
    exact ⟨contains_iff.mp hb, contains_iff.mpr ha⟩

/-! ### Structured change records -/

theorem nodeChangedParams_eq_recs (node : String) (bps aps : List Param) :
    nodeChangedParams node bps aps = (nodeChangeRecs node bps aps).map recFmt := by
  unfold nodeChangedParams nodeChangeRecs
  rw [List.map_flatMap]
  apply List.flatMap_congr
  intro pn _
  by_cases h : (paramNames aps).contains pn
  · rw [if_pos h, if_pos h]
    cases hb : firstParamNamed bps pn with
    | none => rfl
    | some bp =>
      cases ha : firstParamNamed aps pn with
      | none => rfl
      | some ap =>
        by_cases hv : (bp.value != ap.value) = true <;> simp [hv, recFmt]
  · rw [if_neg h, if_neg h]
    rfl

theorem change_param_eq_recFmt (A B : Snapshot) :
    (snapDiff A B).change.param = (changeRecords A B).map recFmt := by
  rw [snapDiff_change_param, changeRecords, List.map_flatMap]
  apply List.flatMap_congr
  intro n _
  by_cases hc : (Dict.keys B.nodes).contains n
  · rw [if_pos hc, if_pos hc, nodeChangedParams_eq_recs]
  · rw [if_neg hc, if_neg hc]
    rfl

/-! ### The parameter `type` tag never influences the report -/

theorem keys_map_value {α β : Type} (f : α → β) (d : Dict α) :
    Dict.keys (d.map (fun kv => (kv.fst, f kv.snd))) = Dict.keys d := by
  unfold Dict.keys
  rw [List.map_map]
  rfl

theorem get?_map_value {α β : Type} (f : α → β) (d : Dict α) (k : String) :
    Dict.get? (d.map (fun kv => (kv.fst, f kv.snd))) k = (Dict.get? d k).map f := by
  induction d with
  | nil => rfl
  | cons kv t ih =>
    by_cases h : (kv.fst == k) = true
    · unfold Dict.get?
      rw [List.map_cons,
        List.find?_cons_of_pos (p := fun kv2 : String × β => kv2.fst == k)
          (a := (kv.fst, f kv.snd)) _ h,
        List.find?_cons_of_pos (p := fun kv2 : String × α => kv2.fst == k) _ h]
      rfl
    · unfold Dict.get?
      rw [List.map_cons,
        List.find?_cons_of_neg (p := fun kv2 : String × β => kv2.fst == k)
          (a := (kv.fst, f kv.snd)) _ h,
        List.find?_cons_of_neg (p := fun kv2 : String × α => kv2.fst == k) _ h]
      exact ih

theorem paramNames_erase (ps : List Param) :
    paramNames (ps.map eraseParamType) = paramNames ps := by
  unfold paramNames
  rw [List.map_map]
  rfl

theorem firstParamNamed_erase (ps : List Param) (pn : String) :
    firstParamNamed (ps.map eraseParamType) pn =
      (firstParamNamed ps pn).map eraseParamType := by
  induction ps with
  | nil => rfl
  | cons p t ih =>
    by_cases h : (p.name == pn) = true
    · unfold firstParamNamed
      rw [List.map_cons,
        List.find?_cons_of_pos (p := fun q : Param => q.name == pn)
          (a := eraseParamType p) _ h,
        List.find?_cons_of_pos (p := fun q : Param => q.name == pn) _ h]
      rfl
    · unfold firstParamNamed
      rw [List.map_cons,
        List.find?_cons_of_neg (p := fun q : Param => q.name == pn)
          (a := eraseParamType p) _ h,
        List.find?_cons_of_neg (p := fun q : Param => q.name == pn) _ h]
      exact ih

theorem dictParams_erase (d : Dict NodeInfo) (n : String) :
    dictParams (d.map (fun kv => (kv.fst, eraseNodeParamTypes kv.snd))) n =
      (dictParams d n).map eraseParamType := by
  unfold dictParams
  rw [get?_map_value]
  cases Dict.get? d n with
  | none => rfl
  | some info => rfl

theorem nodeMissingParams_erase (node : String) (bps aps : List Param) :
    nodeMissingParams node (bps.map eraseParamType) (aps.map eraseParamType) =
      nodeMissingParams node bps aps := by
  unfold nodeMissingParams
  rw [paramNames_erase, paramNames_erase]

theorem nodeAddedParams_erase (node : String) (bps aps : List Param) :
    nodeAddedParams node (bps.map eraseParamType) (aps.map eraseParamType) =
      nodeAddedParams node bps aps := by
  unfold nodeAddedParams
  rw [paramNames_erase, paramNames_erase]

theorem cascadeParams_erase (node : String) (ps : List Param) :
    cascadeParams node (ps.map eraseParamType) = cascadeParams node ps := by
  unfold cascadeParams
  rw [List.map_map]
  rfl

theorem nodeChangedParams_erase (node : String) (bps aps : List Param) :
    nodeChangedParams node (bps.map eraseParamType) (aps.map eraseParamType) =
      nodeChangedParams node bps aps := by
  unfold nodeChangedParams
  rw [paramNames_erase, paramNames_erase]
  apply List.flatMap_congr
  intro pn _
  by_cases h : (paramNames aps).contains pn
  · rw [if_pos h, if_pos h, firstParamNamed_erase, firstParamNamed_erase]
    cases firstParamNamed bps pn with
    | none => rfl
    | some bp =>
      cases firstParamNamed aps pn with
      | none => rfl
      | some ap => rfl
  · rw [if_neg h, if_neg h]

/-- Erasing every parameter `type` tag of both inputs leaves the report
unchanged: the engine reads parameter names and values only. -/
theorem snapDiff_erase_types (A B : Snapshot) :
    snapDiff (snapErase A) (snapErase B) = snapDiff A B := by
  have hkA : Dict.keys (snapErase A).nodes = Dict.keys A.nodes := keys_map_value _ _
  have hkB : Dict.keys (snapErase B).nodes = Dict.keys B.nodes := keys_map_value _ _
  have hpA : ∀ n, dictParams (snapErase A).nodes n = (dictParams A.nodes n).map eraseParamType :=
    fun n => dictParams_erase A.nodes n
  have hpB : ∀ n, dictParams (snapErase B).nodes n = (dictParams B.nodes n).map eraseParamType :=
    fun n => dictParams_erase B.nodes n
  have hce1 := snapDiff_change_entities (snapErase A) (snapErase B)
  have hce2 := snapDiff_change_entities A B
  refine DiffMap.ext (DiffLists.ext ?_ ?_ ?_ ?_ ?_) (DiffLists.ext ?_ ?_ ?_ ?_ ?_)
    (DiffLists.ext ?_ ?_ ?_ ?_ ?_)
  · rw [snapDiff_missing_topics, snapDiff_missing_topics]
    rfl
  · rw [snapDiff_missing_nodes, snapDiff_missing_nodes, hkA, hkB]
  · rw [snapDiff_missing_services, snapDiff_missing_services]
    rfl
  · rw [snapDiff_missing_param, snapDiff_missing_param, hkA, hkB]
    apply List.flatMap_congr
    intro n _
    rw [hpA n, hpB n]
    by_cases hc : (Dict.keys B.nodes).contains n
    · rw [if_pos hc, if_pos hc, nodeMissingParams_erase]
    · rw [if_neg hc, if_neg hc, cascadeParams_erase]
  · rw [snapDiff_missing_connections, snapDiff_missing_connections]
    rfl
  · rw [snapDiff_add_topics, snapDiff_add_topics]
    rfl
  · rw [snapDiff_add_nodes, snapDiff_add_nodes, hkA, hkB]
  · rw [snapDiff_add_services, snapDiff_add_services]
    rfl
  · rw [snapDiff_add_param, snapDiff_add_param, hkA, hkB]
    have e1 : ((Dict.keys A.nodes).flatMap (fun n =>
        if (Dict.keys B.nodes).contains n then
          nodeAddedParams n (dictParams (snapErase A).nodes n) (dictParams (snapErase B).nodes n)
        else [])) = ((Dict.keys A.nodes).flatMap (fun n =>
        if (Dict.keys B.nodes).contains n then
          nodeAddedParams n (dictParams A.nodes n) (dictParams B.nodes n)
        else [])) := by
      apply List.flatMap_congr
      intro n _
      rw [hpA n, hpB n]
      by_cases hc : (Dict.keys B.nodes).contains n
      · rw [if_pos hc, if_pos hc, nodeAddedParams_erase]
      · rw [if_neg hc, if_neg hc]
    have e2 : ((Dict.keys B.nodes).flatMap (fun n =>
        if (Dict.keys A.nodes).contains n then []
        else cascadeParams n (dictParams (snapErase B).nodes n))) =
        ((Dict.keys B.nodes).flatMap (fun n =>
        if (Dict.keys A.nodes).contains n then []
        else cascadeParams n (dictParams B.nodes n))) := by
      apply List.flatMap_congr
      intro n _
      rw [hpB n]
      by_cases hc : (Dict.keys A.nodes).contains n
      · rw [if_pos hc, if_pos hc]
      · rw [if_neg hc, if_neg hc, cascadeParams_erase]
    rw [e1, e2]
  · rw [snapDiff_add_connections, snapDiff_add_connections]
    rfl
  · rw [hce1.2.1, hce2.2.1]
  · rw [hce1.1, hce2.1]
  · rw [hce1.2.2.1, hce2.2.2.1]
  · rw [snapDiff_change_param, snapDiff_change_param, hkA, hkB]
    apply List.flatMap_congr
    intro n _
    rw [hpA n, hpB n]
    by_cases hc : (Dict.keys B.nodes).contains n
    · rw [if_pos hc, if_pos hc, nodeChangedParams_erase]
    · rw [if_neg hc, if_neg hc]
  · rw [hce1.2.2.2, hce2.2.2.2]

theorem report_depends_only_witness :
    diff_check ⟨some ⟨0, "first run"⟩, some [], some [], some [], some [], some []⟩
        ⟨some ⟨1, "x"⟩, some [], some [], some [], some [], some []⟩ =
      diff_check ⟨some ⟨999, "second run"⟩, some [], some [], some [], some [], some []⟩
        ⟨none, some [], some [], some [], some [], some []⟩ :=
  report_depends_only_on_four_collections
    ⟨some ⟨0, "first run"⟩, some [], some [], some [], some [], some []⟩
    ⟨some ⟨1, "x"⟩, some [], some [], some [], some [], some []⟩
    ⟨some ⟨999, "second run"⟩, some [], some [], some [], some [], some []⟩
    ⟨none, some [], some [], some [], some [], some []⟩
    rfl rfl rfl rfl rfl rfl rfl rfl

/-- C6: for a node present in both snapshots and a parameter name present
in both of its parameter sets, the engine produces a change record (and
hence the formatted `change.param` entry) exactly when the two string
`value` fields differ, and the parameter `type` tag never influences the
report: erasing every `type` tag leaves the result unchanged. -/
theorem change_param_iff_value_differs (A B : Snapshot) (n pn bv av : String) :
    ((⟨n, pn, bv, av⟩ : ChangeRec) ∈ changeRecords A B ↔
      (n ∈ Dict.keys A.nodes ∧ n ∈ Dict.keys B.nodes ∧
        ∃ bp ap, firstParamNamed (dictParams A.nodes n) pn = some bp ∧
          firstParamNamed (dictParams B.nodes n) pn = some ap ∧
          bp.value = bv ∧ ap.value = av ∧ bv ≠ av)) ∧
    (snapDiff A B).change.param = (changeRecords A B).map recFmt ∧
    snapDiff (snapErase A) (snapErase B) = snapDiff A B := by
  refine ⟨⟨?_, ?_⟩, change_param_eq_recFmt A B, snapDiff_erase_types A B⟩
  · intro hm
    rw [changeRecords, List.mem_flatMap] at hm
    obtain ⟨n2, hn2, hin⟩ := hm
    by_cases hc : (Dict.keys B.nodes).contains n2
    case neg =>
      rw [if_neg hc] at hin
      exact absurd hin (List.not_mem_nil _)
    rw [if_pos hc] at hin
    rw [nodeChangeRecs, List.mem_flatMap] at hin
    obtain ⟨pn2, hpn2, hin2⟩ := hin
    by_cases hc2 : (paramNames (dictParams B.nodes n2)).contains pn2
    case neg =>
      rw [if_neg hc2] at hin2
      exact absurd hin2 (List.not_mem_nil _)
    rw [if_pos hc2] at hin2
    cases hb : firstParamNamed (dictParams A.nodes n2) pn2 with
    | none =>
      rw [hb] at hin2
      simp at hin2
    | some bp =>
      cases ha : firstParamNamed (dictParams B.nodes n2) pn2 with
      | none =>
        rw [hb, ha] at hin2
        simp at hin2
      | some ap =>
        rw [hb, ha] at hin2
        by_cases hv : (bp.value != ap.value) = true
        · simp only [hv, if_true, List.mem_singleton, ChangeRec.mk.injEq] at hin2
          obtain ⟨e1, e2, e3, e4⟩ := hin2
          subst e1
          subst e2
          refine ⟨hn2, contains_iff.mp hc, bp, ap, hb, ha, e3.symm, e4.symm, ?_⟩
          rw [e3, e4]
          exact bne_iff_ne.mp hv
        · simp only [hv] at hin2
          simp at hin2
  · rintro ⟨hA, hB, bp, ap, hb, ha, hbv, hav, hne⟩
    rw [changeRecords, List.mem_flatMap]
    refine ⟨n, hA, ?_⟩
    rw [if_pos (contains_iff.mpr hB)]
    rw [nodeChangeRecs, List.mem_flatMap]
    refine ⟨pn, mem_paramNames_of_firstParamNamed hb, ?_⟩
    rw [if_pos (contains_iff.mpr (mem_paramNames_of_firstParamNamed ha))]
    rw [hb, ha]
    have hvne : (bp.value != ap.value) = true := by
      rw [hbv, hav]
      exact bne_iff_ne.mpr hne
    simp [hvne, hbv, hav]
    exact hne

/-! ### Symmetry of missing and add -/

theorem bne_comm_str (a b : String) : (a != b) = (b != a) := by
  by_cases h : a = b
  · simp [h]
  · have h2 : b ≠ a := fun hh => h hh.symm
    simp [bne_iff_ne.mpr h, bne_iff_ne.mpr h2]

theorem missing_param_swap (A B : Snapshot)
    (hA : (Dict.keys A.nodes).Nodup) (hB : (Dict.keys B.nodes).Nodup) :
    ((snapDiff B A).missing.param).Perm ((snapDiff A B).add.param) := by
  rw [snapDiff_missing_param, snapDiff_add_param]
  refine (flatMap_ite_split_perm (fun n => (Dict.keys A.nodes).contains n)
    (fun n => nodeMissingParams n (dictParams B.nodes n) (dictParams A.nodes n))
    (fun n => cascadeParams n (dictParams B.nodes n)) (Dict.keys B.nodes)).trans ?_
  rw [flatMap_ite_nil_right, flatMap_ite_nil_left]
  apply List.Perm.append_right
  refine (List.Perm.flatMap_right _ (filter_mem_comm_perm hB hA)).trans ?_
  exact List.Perm.refl _

theorem dictParams_nodup {d : Dict NodeInfo}
    (h : ∀ kv ∈ d, (paramNames kv.snd.parameters).Nodup) (n : String) :
    (paramNames (dictParams d n)).Nodup := by
  unfold dictParams
  cases hg : Dict.get? d n with
  | none => simp [paramNames]
  | some info =>
    unfold Dict.get? at hg
    cases hf : List.find? (fun kv => kv.fst == n) d with
    | none => rw [hf] at hg; simp at hg
    | some kv =>
      rw [hf] at hg
      simp at hg
      rw [← hg]
      exact h kv (List.mem_of_find?_eq_some hf)

theorem nodeChangeRecs_swap (node : String) (bps aps : List Param)
    (hbn : (paramNames bps).Nodup) (han : (paramNames aps).Nodup) :
    (nodeChangeRecs node aps bps).Perm ((nodeChangeRecs node bps aps).map swapRec) := by
  have hL : nodeChangeRecs node aps bps =
      ((paramNames aps).filter (fun pn => (paramNames bps).contains pn)).flatMap
        (fun pn => match firstParamNamed aps pn, firstParamNamed bps pn with
          | some bp, some ap =>
            if bp.value != ap.value then [⟨node, pn, bp.value, ap.value⟩] else []
          | _, _ => []) := by
    unfold nodeChangeRecs
    exact flatMap_ite_nil_right _ _ _
  have hR : nodeChangeRecs node bps aps =
      ((paramNames bps).filter (fun pn => (paramNames aps).contains pn)).flatMap
        (fun pn => match firstParamNamed bps pn, firstParamNamed aps pn with
          | some bp, some ap =>
            if bp.value != ap.value then [⟨node, pn, bp.value, ap.value⟩] else []
          | _, _ => []) := by
    unfold nodeChangeRecs
    exact flatMap_ite_nil_right _ _ _
  rw [hL, hR, List.map_flatMap]
  refine (List.Perm.flatMap_right _ (filter_mem_comm_perm han hbn)).trans ?_
  have hpt : ∀ pn ∈ (paramNames bps).filter (fun pn => (paramNames aps).contains pn),
      (match firstParamNamed aps pn, firstParamNamed bps pn with
        | some bp, some ap =>
          if bp.value != ap.value then [(⟨node, pn, bp.value, ap.value⟩ : ChangeRec)] else []
        | _, _ => []) =
      List.map swapRec (match firstParamNamed bps pn, firstParamNamed aps pn with
        | some bp, some ap =>
          if bp.value != ap.value then [(⟨node, pn, bp.value, ap.value⟩ : ChangeRec)] else []
        | _, _ => []) := by
    intro pn hpn
    rw [List.mem_filter] at hpn
    obtain ⟨hpb, hpa⟩ := hpn
    obtain ⟨bp2, hbp⟩ := firstParamNamed_isSome hpb
    obtain ⟨ap2, hap⟩ := firstParamNamed_isSome (contains_iff.mp hpa)
    rw [hbp, hap]
    by_cases hv : (bp2.value != ap2.value) = true
    · have hv2 : (ap2.value != bp2.value) = true := by rw [bne_comm_str]; exact hv
      simp [hv, hv2, swapRec]
    · have hv2 : ¬ (ap2.value != bp2.value) = true := by rw [bne_comm_str]; exact hv
      simp [hv, hv2]
  rw [List.flatMap_congr hpt]

theorem changeRecords_swap (A B : Snapshot) (hA : SnapWF A) (hB : SnapWF B) :
    (changeRecords B A).Perm ((changeRecords A B).map swapRec) := by
  have hLk : changeRecords B A =
      ((Dict.keys B.nodes).filter (fun n => (Dict.keys A.nodes).contains n)).flatMap
        (fun n => nodeChangeRecs n (dictParams B.nodes n) (dictParams A.nodes n)) := by
    unfold changeRecords
    exact flatMap_ite_nil_right _ _ _
  have hRk : changeRecords A B =
      ((Dict.keys A.nodes).filter (fun n => (Dict.keys B.nodes).contains n)).flatMap
        (fun n => nodeChangeRecs n (dictParams A.nodes n) (dictParams B.nodes n)) := by
    unfold changeRecords
    exact flatMap_ite_nil_right _ _ _
  rw [hLk, hRk, List.map_flatMap]
  refine (List.Perm.flatMap_right _ (filter_mem_comm_perm hB.1 hA.1)).trans ?_
  apply List.Perm.flatMap_left
  intro n _
  exact nodeChangeRecs_swap n (dictParams A.nodes n) (dictParams B.nodes n)
    (dictParams_nodup hA.2.2.2 n) (dictParams_nodup hB.2.2.2 n)

/-- C4: swapping the two inputs swaps `missing` and `add` exactly at every
entity kind, swaps the parameter-level `missing`/`add` lists up to
permutation, and reverses the `before -> after` direction of the change
records while covering the same multiset of `(node, parameter)` pairs. -/
theorem diff_symmetry (A B : Snapshot) (hA : SnapWF A) (hB : SnapWF B) :
    (snapDiff B A).missing.nodes = (snapDiff A B).add.nodes ∧
    (snapDiff B A).missing.topics = (snapDiff A B).add.topics ∧
    (snapDiff B A).missing.services = (snapDiff A B).add.services ∧
    (snapDiff B A).missing.connections = (snapDiff A B).add.connections ∧
    (snapDiff B A).add.nodes = (snapDiff A B).missing.nodes ∧
    (snapDiff B A).add.topics = (snapDiff A B).missing.topics ∧
    (snapDiff B A).add.services = (snapDiff A B).missing.services ∧
    (snapDiff B A).add.connections = (snapDiff A B).missing.connections ∧
    ((snapDiff B A).missing.param).Perm ((snapDiff A B).add.param) ∧
    ((snapDiff B A).add.param).Perm ((snapDiff A B).missing.param) ∧
    (snapDiff B A).change.param = (changeRecords B A).map recFmt ∧
    (snapDiff A B).change.param = (changeRecords A B).map recFmt ∧
    (changeRecords B A).Perm ((changeRecords A B).map swapRec) := by
  refine ⟨?_, ?_, ?_, ?_, ?_, ?_, ?_, ?_,
    missing_param_swap A B hA.1 hB.1, (missing_param_swap B A hB.1 hA.1).symm,
    change_param_eq_recFmt B A, change_param_eq_recFmt A B,
    changeRecords_swap A B hA hB⟩
  · rw [snapDiff_missing_nodes, snapDiff_add_nodes]
  · rw [snapDiff_missing_topics, snapDiff_add_topics]
  · rw [snapDiff_missing_services, snapDiff_add_services]
  · rw [snapDiff_missing_connections, snapDiff_add_connections]
  · rw [snapDiff_add_nodes, snapDiff_missing_nodes]
  · rw [snapDiff_add_topics, snapDiff_missing_topics]
  · rw [snapDiff_add_services, snapDiff_missing_services]
  · rw [snapDiff_add_connections, snapDiff_missing_connections]

theorem diff_symmetry_witness :
    ((snapDiff
        ⟨⟨1, "b"⟩, [("/b", ⟨"node_0", "/b", ["b"], "component",
          [⟨"q", "2", "integer"⟩]⟩)], [], [], [], []⟩
        ⟨⟨0, "a"⟩, [("/a", ⟨"node_0", "/a", ["a"], "component",
          [⟨"p", "1", "integer"⟩]⟩)], [], [], [], []⟩).missing.param).Perm
      ((snapDiff
        ⟨⟨0, "a"⟩, [("/a", ⟨"node_0", "/a", ["a"], "component",
          [⟨"p", "1", "integer"⟩]⟩)], [], [], [], []⟩
        ⟨⟨1, "b"⟩, [("/b", ⟨"node_0", "/b", ["b"], "component",
          [⟨"q", "2", "integer"⟩]⟩)], [], [], [], []⟩).add.param) :=
  (diff_symmetry
    ⟨⟨0, "a"⟩, [("/a", ⟨"node_0", "/a", ["a"], "component",
      [⟨"p", "1", "integer"⟩]⟩)], [], [], [], []⟩
    ⟨⟨1, "b"⟩, [("/b", ⟨"node_0", "/b", ["b"], "component",
      [⟨"q", "2", "integer"⟩]⟩)], [], [], [], []⟩
    (by decide) (by decide)).2.2.2.2.2.2.2.2.1

end DiffCheck
